import Mathlib

/-!
Shallow embedding of github.com/andreaskaris/metallb-converter, package
`converter` (latest revision of converter.go, the one whose signatures the
current test file calls: method `LegacyObjects.Convert`, method `Print` on
both object sets, and the four-argument `OnlineMigration` with the upfront
backup step).

Modelling conventions:
* Go slices become `List`, `*int32` becomes `Option Int`, `uint32` becomes
  `Nat`, `*bool` becomes `Option Bool`.
* The Kubernetes store (controller-runtime `client.Client`) is an in-memory
  `Store`; injected faults (`FaultModel`) model create/delete errors of the
  external API.  `Delete` treats not-found as success, as the Go code does.
* The YAML/JSON rendering engine is external to the core (one document per
  resource, documents separated by a boundary marker), so a serialized file
  is modelled as its list of documents (`KubeObject`), not as text.
* Go methods that mutate their receiver in place (`LegacyObjects.Print`
  fills empty `TypeMeta` fields of the items) return the updated receiver.
* Error strings keep the code's wording but drop `%v`/`%w` payload details
  that the claims do not depend on.
-/

namespace MetallbConverter

/-- TypeMeta is the kind/apiVersion header every Kubernetes object carries. -/
structure TypeMeta where
  kind : String
  apiVersion : String
deriving DecidableEq, Repr

/-- ObjectMeta carries the identifying metadata used by the converter
(`nspace` stands for the Go field `Namespace`; `namespace` is a Lean
keyword). -/
structure ObjectMeta where
  name : String
  nspace : String
deriving DecidableEq, Repr

/-- LegacyBgpAdvertisement mirrors metallb `v1beta1.LegacyBgpAdvertisement`:
optional aggregation lengths (`*int32`), a non-optional `uint32` LocalPref
(zero value 0) and a list of community strings. -/
structure LegacyBgpAdvertisement where
  aggregationLength : Option Int
  aggregationLengthV6 : Option Int
  localPref : Nat
  communities : List String
deriving DecidableEq, Repr

/-- AddressPoolSpec mirrors metallb `v1beta1.AddressPoolSpec`. -/
structure AddressPoolSpec where
  protocol : String
  addresses : List String
  autoAssign : Option Bool
  bgpAdvertisements : List LegacyBgpAdvertisement
deriving DecidableEq, Repr

/-- AddressPool is the legacy combined pool-plus-protocol resource. -/
structure AddressPool where
  typeMeta : TypeMeta
  objectMeta : ObjectMeta
  spec : AddressPoolSpec
deriving DecidableEq, Repr

/-- AddressPoolList mirrors `v1beta1.AddressPoolList`. -/
structure AddressPoolList where
  typeMeta : TypeMeta
  items : List AddressPool
deriving DecidableEq, Repr

/-- IPAddressPoolSpec mirrors metallb `v1beta1.IPAddressPoolSpec` as used by
the converter (addresses and autoAssign only). -/
structure IPAddressPoolSpec where
  addresses : List String
  autoAssign : Option Bool
deriving DecidableEq, Repr

/-- IPAddressPool is the current pool-only resource. -/
structure IPAddressPool where
  typeMeta : TypeMeta
  objectMeta : ObjectMeta
  spec : IPAddressPoolSpec
deriving DecidableEq, Repr

/-- L2AdvertisementSpec holds the back-reference to its pools. -/
structure L2AdvertisementSpec where
  ipAddressPools : List String
deriving DecidableEq, Repr

/-- L2Advertisement is the current layer-2 advertisement resource. -/
structure L2Advertisement where
  typeMeta : TypeMeta
  objectMeta : ObjectMeta
  spec : L2AdvertisementSpec
deriving DecidableEq, Repr

/-- BGPAdvertisementSpec mirrors `v1beta1.BGPAdvertisementSpec` as filled in
by the converter. -/
structure BGPAdvertisementSpec where
  aggregationLength : Option Int
  aggregationLengthV6 : Option Int
  localPref : Nat
  communities : List String
  ipAddressPools : List String
deriving DecidableEq, Repr

/-- BGPAdvertisement is the current BGP advertisement resource. -/
structure BGPAdvertisement where
  typeMeta : TypeMeta
  objectMeta : ObjectMeta
  spec : BGPAdvertisementSpec
deriving DecidableEq, Repr

/-- IPAddressPoolList mirrors `v1beta1.IPAddressPoolList`. -/
structure IPAddressPoolList where
  typeMeta : TypeMeta
  items : List IPAddressPool
deriving DecidableEq, Repr

/-- L2AdvertisementList mirrors `v1beta1.L2AdvertisementList`. -/
structure L2AdvertisementList where
  typeMeta : TypeMeta
  items : List L2Advertisement
deriving DecidableEq, Repr

/-- BGPAdvertisementList mirrors `v1beta1.BGPAdvertisementList`. -/
structure BGPAdvertisementList where
  typeMeta : TypeMeta
  items : List BGPAdvertisement
deriving DecidableEq, Repr

/-- LegacyObjects holds the metallb legacy objects to be converted. -/
structure LegacyObjects where
  addressPoolList : AddressPoolList
deriving DecidableEq, Repr

/-- CurrentObjects holds the converted objects; the field order
(IPAddressPoolList, L2AdvertisementList, BGPAdvertisementList) is the Go
struct field order, which the reflection-based Print iterates. -/
structure CurrentObjects where
  ipAddressPoolList : IPAddressPoolList
  l2AdvertisementList : L2AdvertisementList
  bgpAdvertisementList : BGPAdvertisementList
deriving DecidableEq, Repr

/-- ProtocolBGP is the string representation of the BGP protocol. -/
def ProtocolBGP : String := "bgp"

/-- ProtocolLayer2 is the string representation of the layer2 protocol. -/
def ProtocolLayer2 : String := "layer2"

/-- metallbAPIGroup is the only resource group the reader accepts. -/
def metallbAPIGroup : String := "metallb.io"

/-- metallbAPIVersion is the group/version the converter stamps on output. -/
def metallbAPIVersion : String := "metallb.io/v1beta1"

/-- supportedLegacyGKVVersions is the version allow-list of the reader. -/
def supportedLegacyGKVVersions : List String := ["v1beta1"]

/-- mkLegacyObjects wraps a list of pools the way the Go readers do: a fresh
`AddressPoolList` whose own TypeMeta is left at its zero value. -/
def mkLegacyObjects (aps : List AddressPool) : LegacyObjects :=
  { addressPoolList := { typeMeta := { kind := "", apiVersion := "" }, items := aps } }

/-- mkIPAddressPool is the per-pool projection of `Convert`: name, namespace,
addresses and autoAssign are carried over, protocol and advertisements are
dropped. -/
def mkIPAddressPool (ap : AddressPool) : IPAddressPool :=
  { typeMeta := { kind := "IPAddressPool", apiVersion := metallbAPIVersion },
    objectMeta := { name := ap.objectMeta.name, nspace := ap.objectMeta.nspace },
    spec := { addresses := ap.spec.addresses, autoAssign := ap.spec.autoAssign } }

/-- mkL2Advertisement is the layer2 branch of `Convert`: one advertisement
named `<poolName>-l2-advertisement` referencing exactly the pool. -/
def mkL2Advertisement (ap : AddressPool) : L2Advertisement :=
  { typeMeta := { kind := "L2Advertisement", apiVersion := metallbAPIVersion },
    objectMeta := { name := ap.objectMeta.name ++ "-l2-advertisement", nspace := ap.objectMeta.nspace },
    spec := { ipAddressPools := [ap.objectMeta.name] } }

/-- mkBGPAdvertisement is the body of the bgp loop of `Convert`: the i-th
advertisement of a pool, fields copied verbatim, named
`<poolName>-bgp-advertisement-<i>`. -/
def mkBGPAdvertisement (ap : AddressPool) (i : Nat) (adv : LegacyBgpAdvertisement) : BGPAdvertisement :=
  { typeMeta := { kind := "BGPAdvertisement", apiVersion := metallbAPIVersion },
    objectMeta := { name := ap.objectMeta.name ++ "-bgp-advertisement-" ++ toString i,
                    nspace := ap.objectMeta.nspace },
    spec := { aggregationLength := adv.aggregationLength,
              aggregationLengthV6 := adv.aggregationLengthV6,
              localPref := adv.localPref,
              communities := adv.communities,
              ipAddressPools := [ap.objectMeta.name] } }

/-- effectiveAdvertisements models the dummy-advertisement substitution of
`Convert`: if the optional BGPAdvertisements are not set, a single zero-value
advertisement is used instead (the Go code deep-copies before appending, so
the input list is never modified). -/
def effectiveAdvertisements (ap : AddressPool) : List LegacyBgpAdvertisement :=
  if ap.spec.bgpAdvertisements = [] then
    [{ aggregationLength := none, aggregationLengthV6 := none, localPref := 0, communities := [] }]
  else
    ap.spec.bgpAdvertisements

/-- bgpAdvertisementsFrom renders advertisements to BGPAdvertisement
resources, numbering them from `i` upward (the Go code runs an indexed for
loop from 0). -/
def bgpAdvertisementsFrom (ap : AddressPool) : Nat → List LegacyBgpAdvertisement → List BGPAdvertisement
  | _, [] => []
  | i, adv :: advs => mkBGPAdvertisement ap i adv :: bgpAdvertisementsFrom ap (i + 1) advs

/-- bgpAdvertisementsForPool is the full bgp branch of `Convert` for one
pool: the (possibly substituted) advertisement list, indexed from 0. -/
def bgpAdvertisementsForPool (ap : AddressPool) : List BGPAdvertisement :=
  bgpAdvertisementsFrom ap 0 (effectiveAdvertisements ap)

/-- convertItems is the loop body of `LegacyObjects.Convert` over the items:
each pool yields one IPAddressPool; a layer2 pool additionally yields one
L2Advertisement, a bgp pool yields its BGPAdvertisements; any other protocol
makes the whole conversion fail (the Go code returns `nil, err`, discarding
everything built so far). -/
def convertItems : List AddressPool → Except String (List IPAddressPool × List L2Advertisement × List BGPAdvertisement)
  | [] => .ok ([], [], [])
  | ap :: rest =>
    if ap.spec.protocol = ProtocolLayer2 then
      match convertItems rest with
      | .error e => .error e
      | .ok (iaps, l2as, bas) => .ok (mkIPAddressPool ap :: iaps, mkL2Advertisement ap :: l2as, bas)
    else if ap.spec.protocol = ProtocolBGP then
      match convertItems rest with
      | .error e => .error e
      | .ok (iaps, l2as, bas) => .ok (mkIPAddressPool ap :: iaps, l2as, bgpAdvertisementsForPool ap ++ bas)
    else
      .error ("unsupported Spec.Protocol for AddressPool, " ++ ap.objectMeta.name)

/-- Convert converts the provided LegacyObjects into current objects
(method `LegacyObjects.Convert` of the source).  It is a pure function: on
failure no partial CurrentObjects value exists. -/
def LegacyObjects.Convert (l : LegacyObjects) : Except String CurrentObjects :=
  match convertItems l.addressPoolList.items with
  | .error e => .error e
  | .ok (iaps, l2as, bas) =>
    .ok { ipAddressPoolList := { typeMeta := { kind := "IPAddressPoolList", apiVersion := metallbAPIVersion }, items := iaps },
          l2AdvertisementList := { typeMeta := { kind := "L2AdvertisementList", apiVersion := metallbAPIVersion }, items := l2as },
          bgpAdvertisementList := { typeMeta := { kind := "BGPAdvertisementList", apiVersion := metallbAPIVersion }, items := bas } }

/-- KubeObject is one serialized document: the external YAML/JSON engine
renders one typed resource per document, so a document is modelled by the
resource it holds. -/
inductive KubeObject where
  | addressPool (ap : AddressPool)
  | addressPoolList (apl : AddressPoolList)
  | ipAddressPool (p : IPAddressPool)
  | l2Advertisement (a : L2Advertisement)
  | bgpAdvertisement (a : BGPAdvertisement)
deriving DecidableEq, Repr

/-- docTypeMeta reads the kind/apiVersion header of a document, exactly what
the Kubernetes deserializer derives a GroupVersionKind from. -/
def docTypeMeta : KubeObject → TypeMeta
  | .addressPool ap => ap.typeMeta
  | .addressPoolList apl => apl.typeMeta
  | .ipAddressPool p => p.typeMeta
  | .l2Advertisement a => a.typeMeta
  | .bgpAdvertisement a => a.typeMeta

/-- OutFile is one file written to a target directory: its name plus the
documents it contains. -/
structure OutFile where
  fileName : String
  docs : List KubeObject
deriving DecidableEq, Repr

/-- fileExt is the extension chosen from the toJSON flag when writing to a
directory. -/
def fileExt (toJSON : Bool) : String :=
  if toJSON then "json" else "yaml"

/-- setDefaultTypeMeta models the loop at the top of `LegacyObjects.Print`:
an item with an empty Kind or APIVersion gets the defaults filled in, in
place, because the YAML and JSON printers expect them to be set. -/
def setDefaultTypeMeta (ap : AddressPool) : AddressPool :=
  { ap with typeMeta :=
      { kind := if ap.typeMeta.kind = "" then "AddressPool" else ap.typeMeta.kind,
        apiVersion := if ap.typeMeta.apiVersion = "" then metallbAPIVersion else ap.typeMeta.apiVersion } }

/-- Print serializes a LegacyObjects set to a target directory (method
`LegacyObjects.Print` with a non-empty targetDirectory).  An empty item list
returns immediately with no output and no mutation; otherwise the items get
their TypeMeta defaults filled in (mutating the receiver, hence the updated
set in the result) and are all written into the single file
`AddressPool.<ext>`. -/
def LegacyObjects.Print (l : LegacyObjects) (toJSON : Bool) : LegacyObjects × List OutFile :=
  if l.addressPoolList.items.isEmpty then
    (l, [])
  else
    let items := l.addressPoolList.items.map setDefaultTypeMeta
    ({ addressPoolList := { l.addressPoolList with items := items } },
     [{ fileName := "AddressPool" ++ "." ++ fileExt toJSON,
        docs := items.map KubeObject.addressPool }])

/-- checkDocs models the per-object GVK guard of `printObj`: the printers
refuse an object whose GroupVersionKind is empty, which for these resources
means both Kind and APIVersion are empty strings.  Rendering itself is the
external engine and is not modelled further. -/
def checkDocs : List KubeObject → Except String Unit
  | [] => .ok ()
  | d :: ds =>
    if (docTypeMeta d).kind = "" ∧ (docTypeMeta d).apiVersion = "" then
      .error "missing apiVersion or kind"
    else
      checkDocs ds

/-- collectionFiles renders one member collection of `CurrentObjects.Print`:
an empty collection is skipped entirely, a non-empty one becomes a single
file named after the Kind of its first element. -/
def collectionFiles (docs : List KubeObject) (toJSON : Bool) : Except String (List OutFile) :=
  match docs with
  | [] => .ok []
  | d :: _ =>
    match checkDocs docs with
    | .error e => .error e
    | .ok _ => .ok [{ fileName := (docTypeMeta d).kind ++ "." ++ fileExt toJSON, docs := docs }]

/-- Print serializes a CurrentObjects set to a target directory (method
`CurrentObjects.Print` with a non-empty targetDirectory).  The reflection
loop visits the struct fields in declaration order: IPAddressPoolList,
L2AdvertisementList, BGPAdvertisementList. -/
def CurrentObjects.Print (c : CurrentObjects) (toJSON : Bool) : Except String (List OutFile) :=
  match collectionFiles (c.ipAddressPoolList.items.map KubeObject.ipAddressPool) toJSON with
  | .error e => .error e
  | .ok f1 =>
    match collectionFiles (c.l2AdvertisementList.items.map KubeObject.l2Advertisement) toJSON with
    | .error e => .error e
    | .ok f2 =>
      match collectionFiles (c.bgpAdvertisementList.items.map KubeObject.bgpAdvertisement) toJSON with
      | .error e => .error e
      | .ok f3 => .ok (f1 ++ f2 ++ f3)

/-- splitChars splits a character list on a separator, one segment per
separator occurrence (the structural counterpart of splitting a string). -/
def splitChars (sep : Char) : List Char → List (List Char)
  | [] => [[]]
  | c :: cs =>
    match splitChars sep cs with
    | [] => if c = sep then [[], []] else [[c]]
    | r :: rs => if c = sep then [] :: r :: rs else (c :: r) :: rs

/-- parseGroupVersion splits an apiVersion string into group and version the
way `schema.ParseGroupVersion` does: no slash means an empty group.  Other
shapes only ever feed the failing group check, so they map to empty
strings. -/
def parseGroupVersion (apiVersion : String) : String × String :=
  match (splitChars '/' apiVersion.data).map String.mk with
  | [v] => ("", v)
  | [g, v] => (g, v)
  | _ => ("", "")

/-- decodeElement models decoding one document of a directory file and the
GKV switch of `ReadLegacyObjectsFromDirectory`: wrong group or version fails
the read, an `AddressPool` document contributes itself, an `AddressPoolList`
document contributes its items, and any other kind is unsupported. -/
def decodeElement (doc : KubeObject) : Except String (List AddressPool) :=
  let tm := docTypeMeta doc
  let gv := parseGroupVersion tm.apiVersion
  if gv.1 ≠ metallbAPIGroup then
    .error ("could not read legacy objects from directory, invalid gkv.Group " ++ gv.1)
  else if ¬ gv.2 ∈ supportedLegacyGKVVersions then
    .error ("could not read legacy objects from directory, invalid gkv.Version " ++ gv.2)
  else
    match doc with
    | .addressPool ap =>
      if tm.kind = "AddressPool" then .ok [ap]
      else .error ("could not read legacy objects from directory, unsupported GKV: " ++ tm.kind)
    | .addressPoolList apl =>
      if tm.kind = "AddressPoolList" then .ok apl.items
      else .error ("could not read legacy objects from directory, unsupported GKV: " ++ tm.kind)
    | _ => .error ("could not read legacy objects from directory, unsupported GKV: " ++ tm.kind)

/-- readDocs decodes the documents of one file in order, appending their
pools; the first failure aborts the whole read. -/
def readDocs : List KubeObject → Except String (List AddressPool)
  | [] => .ok []
  | d :: ds =>
    match decodeElement d with
    | .error e => .error e
    | .ok aps =>
      match readDocs ds with
      | .error e => .error e
      | .ok rest => .ok (aps ++ rest)

/-- readFiles folds `readDocs` over the files of a directory in order
(`os.ReadDir` yields them sorted by name). -/
def readFiles : List OutFile → Except String (List AddressPool)
  | [] => .ok []
  | f :: fs =>
    match readDocs f.docs with
    | .error e => .error e
    | .ok aps =>
      match readFiles fs with
      | .error e => .error e
      | .ok rest => .ok (aps ++ rest)

/-- ReadLegacyObjectsFromDirectory builds a LegacyObjects set from the files
of a directory, starting from a zero-valued AddressPoolList. -/
def ReadLegacyObjectsFromDirectory (files : List OutFile) : Except String LegacyObjects :=
  match readFiles files with
  | .error e => .error e
  | .ok aps => .ok (mkLegacyObjects aps)

/-- poolData is the spec-level content of a legacy pool: its identifying
metadata and its spec, everything except the serialization header. -/
def poolData (ap : AddressPool) : ObjectMeta × AddressPoolSpec :=
  (ap.objectMeta, ap.spec)

/-- CurrStore is the current-schema half of the live store: the three
resource collections created by the migration. -/
structure CurrStore where
  ipAddressPools : List IPAddressPool
  l2Advertisements : List L2Advertisement
  bgpAdvertisements : List BGPAdvertisement
deriving DecidableEq, Repr

/-- Store is the in-memory model of the live Kubernetes store: the legacy
pools plus the current-schema collections.  Listing returns `addressPools`
in list order; a bounded list takes a prefix. -/
structure Store where
  addressPools : List AddressPool
  curr : CurrStore
deriving DecidableEq, Repr

/-- FaultModel injects failures of the external store: whether deleting or
creating the object of a given kind and name fails.  A delete that merely
hits not-found is already success in the code, so `deleteFails` models the
remaining error class. -/
structure FaultModel where
  deleteFails : String → String → Bool
  createFails : String → String → Bool

/-- Event is one observable interaction of the migration with the outside
world: a list call with its limit, the serialization of the backup, or the
delete/create of one named object. -/
inductive Event where
  | list (limit : Nat)
  | backup (files : List OutFile)
  | deleteObj (kind : String) (name : String)
  | createObj (kind : String) (name : String)
deriving DecidableEq, Repr

/-- isLoopEvent recognizes the events the per-item migration loop may emit:
bounded fetches, deletes and creates — never a backup, never an unbounded
fetch. -/
def Event.isLoopEvent : Event → Bool
  | .list limit => limit == 1
  | .backup _ => false
  | .deleteObj _ _ => true
  | .createObj _ _ => true

/-- CurrOpResult is the outcome of running a create sequence against the
store: error or success, the resulting current-schema collections, and the
events issued (in order, ending at the first failure). -/
structure CurrOpResult where
  result : Except String Unit
  curr : CurrStore
  events : List Event
deriving Repr

/-- createItems models the create loop the Go `Create` methods run over one
collection: each member is posted in order; the first failure aborts
immediately and is propagated, already-created members are left behind. -/
def createItems {α : Type} (fm : FaultModel) (kind : String) (nameOf : α → String)
    (ins : CurrStore → α → CurrStore) : List α → CurrStore → CurrOpResult
  | [], cs => { result := .ok (), curr := cs, events := [] }
  | x :: xs, cs =>
    if fm.createFails kind (nameOf x) then
      { result := .error ("cannot create currentObject " ++ kind ++ ", " ++ nameOf x),
        curr := cs, events := [.createObj kind (nameOf x)] }
    else
      let r := createItems fm kind nameOf ins xs (ins cs x)
      { r with events := .createObj kind (nameOf x) :: r.events }

/-- andThen sequences two create phases: a failure of the first phase aborts
with its state and trace, otherwise the second phase runs on the resulting
store and the traces concatenate. -/
def andThen (r : CurrOpResult) (f : CurrStore → CurrOpResult) : CurrOpResult :=
  match r.result with
  | .error _ => r
  | .ok _ =>
    { result := (f r.curr).result, curr := (f r.curr).curr,
      events := r.events ++ (f r.curr).events }

/-- Create posts all objects of a CurrentObjects set to the store, in the
order of the Go method `CurrentObjects.Create`: IPAddressPools, then
BGPAdvertisements, then L2Advertisements; the first failure aborts. -/
def CurrentObjects.Create (c : CurrentObjects) (fm : FaultModel) (cs : CurrStore) : CurrOpResult :=
  andThen (createItems fm "IPAddressPool" (fun p => p.objectMeta.name)
      (fun cs p => { cs with ipAddressPools := cs.ipAddressPools ++ [p] })
      c.ipAddressPoolList.items cs) (fun cs1 =>
    andThen (createItems fm "BGPAdvertisement" (fun a => a.objectMeta.name)
        (fun cs a => { cs with bgpAdvertisements := cs.bgpAdvertisements ++ [a] })
        c.bgpAdvertisementList.items cs1) (fun cs2 =>
      createItems fm "L2Advertisement" (fun a => a.objectMeta.name)
        (fun cs a => { cs with l2Advertisements := cs.l2Advertisements ++ [a] })
        c.l2AdvertisementList.items cs2))

/-- RunResult is the outcome of the online migration (or of its loop): error
or success, the final store content and the event trace. -/
structure RunResult where
  result : Except String Unit
  addressPools : List AddressPool
  curr : CurrStore
  events : List Event
deriving Repr

/-- onlineLoopFuel is the per-item loop of `OnlineMigration`: fetch one
legacy pool (limit 1; the fetched item is the head of the store listing),
stop when none is left; otherwise convert that single pool, delete it from
the store (not-found counting as success), and create the converted objects.
Either failure aborts the loop immediately with no retry, no re-creation of
the deleted pool and no deletion of already-created replacements.

The Go loop has no fuel; it terminates because each successful iteration
removes the fetched head pool from the store.  The structural fuel argument
makes that measure explicit; `onlineLoop` supplies `length + 1`, which is
always sufficient (each iteration consumes at least one pool plus the final
empty fetch), so the fuel-exhausted branch is unreachable. -/
def onlineLoopFuel (fm : FaultModel) : Nat → List AddressPool → CurrStore → RunResult
  | 0, aps, cs =>
    { result := .ok (), addressPools := aps, curr := cs, events := [] }
  | fuel + 1, aps, cs =>
    match aps with
    | [] =>
      { result := .ok (), addressPools := [], curr := cs, events := [.list 1] }
    | p :: t =>
      match (mkLegacyObjects [p]).Convert with
      | .error e =>
        { result := .error ("error during conversion step, err: " ++ e),
          addressPools := p :: t, curr := cs, events := [.list 1] }
      | .ok co =>
        if fm.deleteFails "AddressPool" p.objectMeta.name then
          { result := .error ("online migration failed during legacy object deletion, err: cannot delete legacyObject AddressPool, " ++ p.objectMeta.name),
            addressPools := p :: t, curr := cs,
            events := [.list 1, .deleteObj "AddressPool" p.objectMeta.name] }
        else
          match (co.Create fm cs).result with
          | .error e =>
            { result := .error ("online migration failed during current object creation, err: " ++ e),
              addressPools := t.filter (fun q => decide (q.objectMeta ≠ p.objectMeta)),
              curr := (co.Create fm cs).curr,
              events := .list 1 :: .deleteObj "AddressPool" p.objectMeta.name :: (co.Create fm cs).events }
          | .ok _ =>
            let r := onlineLoopFuel fm fuel
              (t.filter (fun q => decide (q.objectMeta ≠ p.objectMeta))) ((co.Create fm cs).curr)
            { result := r.result, addressPools := r.addressPools, curr := r.curr,
              events := .list 1 :: .deleteObj "AddressPool" p.objectMeta.name ::
                ((co.Create fm cs).events ++ r.events) }

/-- onlineLoop runs the migration loop with its always-sufficient fuel. -/
def onlineLoop (fm : FaultModel) (aps : List AddressPool) (cs : CurrStore) : RunResult :=
  onlineLoopFuel fm (aps.length + 1) aps cs

/-- OnlineMigration executes the online migration: one unbounded fetch of
the entire legacy set, its serialization to the mandatory backup directory
(a backup failure is a hard process exit in the code and the write itself is
external, so the backup step is modelled as succeeding), then the per-item
loop. -/
def OnlineMigration (fm : FaultModel) (toJSON : Bool) (s : Store) : RunResult :=
  let legacyObjects := mkLegacyObjects s.addressPools
  let backup := legacyObjects.Print toJSON
  let r := onlineLoop fm s.addressPools s.curr
  { r with events := .list 0 :: .backup backup.2 :: r.events }

/-! Characterization lemmas for `Convert`. -/

/-- l2Chunk is the contribution of one pool to the L2Advertisement output of
`Convert`. -/
def l2Chunk (ap : AddressPool) : List L2Advertisement :=
  if ap.spec.protocol = ProtocolLayer2 then [mkL2Advertisement ap] else []

/-- bgpChunk is the contribution of one pool to the BGPAdvertisement output
of `Convert`. -/
def bgpChunk (ap : AddressPool) : List BGPAdvertisement :=
  if ap.spec.protocol = ProtocolBGP then bgpAdvertisementsForPool ap else []

/-- wellKinded says every member of a CurrentObjects set carries the
kind/apiVersion header its collection stands for — true of every set
`Convert` produces. -/
@[reducible]
def wellKinded (co : CurrentObjects) : Prop :=
  (∀ x ∈ co.ipAddressPoolList.items,
    x.typeMeta = { kind := "IPAddressPool", apiVersion := metallbAPIVersion }) ∧
  (∀ x ∈ co.l2AdvertisementList.items,
    x.typeMeta = { kind := "L2Advertisement", apiVersion := metallbAPIVersion }) ∧
  (∀ x ∈ co.bgpAdvertisementList.items,
    x.typeMeta = { kind := "BGPAdvertisement", apiVersion := metallbAPIVersion })

/-! Concrete fixtures, mirroring the test data of the repository
(`validAddressPools0`): one layer2 pool, one bgp pool with two
advertisements, one bgp pool with none. -/

/-- sampleL2Pool mirrors the fixture pool `ap-l2`. -/
def sampleL2Pool : AddressPool :=
  { typeMeta := { kind := "", apiVersion := "" },
    objectMeta := { name := "ap-l2", nspace := "metallb-system" },
    spec := { protocol := "layer2", addresses := ["192.168.100.100"],
              autoAssign := some true, bgpAdvertisements := [] } }

/-- sampleBgpPool mirrors the fixture pool `ap-bgp` with two explicit
advertisements. -/
def sampleBgpPool : AddressPool :=
  { typeMeta := { kind := "", apiVersion := "" },
    objectMeta := { name := "ap-bgp", nspace := "metallb-system" },
    spec := { protocol := "bgp", addresses := ["192.168.100.100"], autoAssign := some true,
              bgpAdvertisements :=
                [{ aggregationLength := some 32, aggregationLengthV6 := some 64,
                   localPref := 10, communities := ["65432:12345"] },
                 { aggregationLength := some 32, aggregationLengthV6 := some 64,
                   localPref := 11, communities := ["65433:12346"] }] } }

/-- sampleBgpPool2 mirrors the fixture pool `ap-bgp2` with no explicit
advertisements. -/
def sampleBgpPool2 : AddressPool :=
  { typeMeta := { kind := "", apiVersion := "" },
    objectMeta := { name := "ap-bgp2", nspace := "metallb-system" },
    spec := { protocol := "bgp", addresses := ["192.168.100.100"],
              autoAssign := some true, bgpAdvertisements := [] } }

/-- badPool is a pool whose protocol is neither layer2 nor bgp. -/
def badPool : AddressPool :=
  { typeMeta := { kind := "", apiVersion := "" },
    objectMeta := { name := "ap-bad", nspace := "metallb-system" },
    spec := { protocol := "ospf", addresses := ["192.168.100.100"],
              autoAssign := some true, bgpAdvertisements := [] } }

/-- sampleLegacy is the three-pool legacy set of the fixtures. -/
def sampleLegacy : LegacyObjects :=
  mkLegacyObjects [sampleL2Pool, sampleBgpPool, sampleBgpPool2]

/-- sampleConverted is the conversion result of `sampleLegacy`. -/
def sampleConverted : CurrentObjects :=
  { ipAddressPoolList :=
      { typeMeta := { kind := "IPAddressPoolList", apiVersion := metallbAPIVersion },
        items := [mkIPAddressPool sampleL2Pool, mkIPAddressPool sampleBgpPool,
                  mkIPAddressPool sampleBgpPool2] },
    l2AdvertisementList :=
      { typeMeta := { kind := "L2AdvertisementList", apiVersion := metallbAPIVersion },
        items := [mkL2Advertisement sampleL2Pool] },
    bgpAdvertisementList :=
      { typeMeta := { kind := "BGPAdvertisementList", apiVersion := metallbAPIVersion },
        items := bgpAdvertisementsForPool sampleBgpPool ++ bgpAdvertisementsForPool sampleBgpPool2 } }

/-- singleL2Legacy is the one-pool legacy set holding `sampleL2Pool`. -/
def singleL2Legacy : LegacyObjects := mkLegacyObjects [sampleL2Pool]

/-- singleL2Converted is the conversion result of `singleL2Legacy`. -/
def singleL2Converted : CurrentObjects :=
  { ipAddressPoolList :=
      { typeMeta := { kind := "IPAddressPoolList", apiVersion := metallbAPIVersion },
        items := [mkIPAddressPool sampleL2Pool] },
    l2AdvertisementList :=
      { typeMeta := { kind := "L2AdvertisementList", apiVersion := metallbAPIVersion },
        items := [mkL2Advertisement sampleL2Pool] },
    bgpAdvertisementList :=
      { typeMeta := { kind := "BGPAdvertisementList", apiVersion := metallbAPIVersion },
        items := [] } }

/-- fmNone is the fault-free client: every delete and create succeeds. -/
def fmNone : FaultModel :=
  { deleteFails := fun _ _ => false, createFails := fun _ _ => false }

/-- fmFailIP is a client on which creating any IPAddressPool fails and
everything else succeeds. -/
def fmFailIP : FaultModel :=
  { deleteFails := fun _ _ => false, createFails := fun kind _ => kind == "IPAddressPool" }

/-- emptyCurrStore is a store with no current-schema objects yet. -/
def emptyCurrStore : CurrStore :=
  { ipAddressPools := [], l2Advertisements := [], bgpAdvertisements := [] }

/-- c6Store holds a convertible pool first and an unsupported-protocol pool
second. -/
def c6Store : Store :=
  { addressPools := [sampleL2Pool, badPool], curr := emptyCurrStore }

/-- c6BadOnlyStore holds only the unsupported-protocol pool. -/
def c6BadOnlyStore : Store :=
  { addressPools := [badPool], curr := emptyCurrStore }

instance exceptDecEq {ε α : Type} [DecidableEq ε] [DecidableEq α] : DecidableEq (Except ε α) :=
  fun x y =>
    match x, y with
    | .ok a, .ok b =>
      if h : a = b then .isTrue (by rw [h]) else .isFalse (by intro hc; cases hc; exact h rfl)
    | .error a, .error b =>
      if h : a = b then .isTrue (by rw [h]) else .isFalse (by intro hc; cases hc; exact h rfl)
    | .ok _, .error _ => .isFalse (by intro hc; cases hc)
    | .error _, .ok _ => .isFalse (by intro hc; cases hc)

theorem layer2_ne_bgp : ProtocolLayer2 ≠ ProtocolBGP := by decide

theorem bgp_ne_layer2 : ProtocolBGP ≠ ProtocolLayer2 := by decide

theorem convertItems_ok (aps : List AddressPool) (iaps : List IPAddressPool)
    (l2as : List L2Advertisement) (bas : List BGPAdvertisement)
    (h : convertItems aps = .ok (iaps, l2as, bas)) :
    iaps = aps.map mkIPAddressPool ∧
    l2as = aps.flatMap l2Chunk ∧
    bas = aps.flatMap bgpChunk := by
  induction aps generalizing iaps l2as bas with
  | nil =>
    simp only [convertItems, Except.ok.injEq, Prod.mk.injEq] at h
    simp [← h.1, ← h.2.1, ← h.2.2]
  | cons a rest ih =>
    by_cases h2 : a.spec.protocol = ProtocolLayer2
    · rw [convertItems, if_pos h2] at h
      cases hrest : convertItems rest with
      | error e => rw [hrest] at h; cases h
      | ok r =>
        obtain ⟨i0, l0, b0⟩ := r
        rw [hrest] at h
        simp only [Except.ok.injEq, Prod.mk.injEq] at h
        obtain ⟨hi, hl, hb⟩ := h
        obtain ⟨hi0, hl0, hb0⟩ := ih i0 l0 b0 hrest
        subst hi hl hb hi0 hl0 hb0
        refine ⟨rfl, ?_, ?_⟩
        · simp [List.flatMap_cons, l2Chunk, if_pos h2]
        · simp [List.flatMap_cons, bgpChunk, h2, layer2_ne_bgp]
    · by_cases h3 : a.spec.protocol = ProtocolBGP
      · rw [convertItems, if_neg h2, if_pos h3] at h
        cases hrest : convertItems rest with
        | error e => rw [hrest] at h; cases h
        | ok r =>
          obtain ⟨i0, l0, b0⟩ := r
          rw [hrest] at h
          simp only [Except.ok.injEq, Prod.mk.injEq] at h
          obtain ⟨hi, hl, hb⟩ := h
          obtain ⟨hi0, hl0, hb0⟩ := ih i0 l0 b0 hrest
          subst hi hl hb hi0 hl0 hb0
          refine ⟨rfl, ?_, ?_⟩
          · simp [List.flatMap_cons, l2Chunk, h3, bgp_ne_layer2]
          · simp [List.flatMap_cons, bgpChunk, if_pos h3]
      · rw [convertItems, if_neg h2, if_neg h3] at h
        cases h

theorem convertItems_error_iff (aps : List AddressPool) :
    (∃ e, convertItems aps = .error e) ↔
      ∃ ap ∈ aps, ap.spec.protocol ≠ ProtocolLayer2 ∧ ap.spec.protocol ≠ ProtocolBGP := by
  induction aps with
  | nil => simp [convertItems]
  | cons a rest ih =>
    by_cases h2 : a.spec.protocol = ProtocolLayer2
    · rw [convertItems, if_pos h2]
      cases hrest : convertItems rest with
      | error e =>
        simp only [List.mem_cons]
        constructor
        · intro _
          obtain ⟨ap, hap, hprot⟩ := ih.mp ⟨e, hrest⟩
          exact ⟨ap, Or.inr hap, hprot⟩
        · intro _; exact ⟨e, rfl⟩
      | ok r =>
        obtain ⟨i0, l0, b0⟩ := r
        simp only [List.mem_cons]
        constructor
        · rintro ⟨e, he⟩; cases he
        · rintro ⟨ap, hap, hprot⟩
          rcases hap with rfl | hap
          · exact absurd h2 hprot.1
          · obtain ⟨e, he⟩ := ih.mpr ⟨ap, hap, hprot⟩
            rw [he] at hrest; cases hrest
    · by_cases h3 : a.spec.protocol = ProtocolBGP
      · rw [convertItems, if_neg h2, if_pos h3]
        cases hrest : convertItems rest with
        | error e =>
          simp only [List.mem_cons]
          constructor
          · intro _
            obtain ⟨ap, hap, hprot⟩ := ih.mp ⟨e, hrest⟩
            exact ⟨ap, Or.inr hap, hprot⟩
          · intro _; exact ⟨e, rfl⟩
        | ok r =>
          obtain ⟨i0, l0, b0⟩ := r
          simp only [List.mem_cons]
          constructor
          · rintro ⟨e, he⟩; cases he
          · rintro ⟨ap, hap, hprot⟩
            rcases hap with rfl | hap
            · exact absurd h3 hprot.2
            · obtain ⟨e, he⟩ := ih.mpr ⟨ap, hap, hprot⟩
              rw [he] at hrest; cases hrest
      · rw [convertItems, if_neg h2, if_neg h3]
        simp only [List.mem_cons]
        constructor
        · intro _; exact ⟨a, Or.inl rfl, h2, h3⟩
        · intro _; exact ⟨_, rfl⟩

theorem Convert_ok_parts (l : LegacyObjects) (co : CurrentObjects)
    (h : l.Convert = .ok co) :
    co.ipAddressPoolList.items = l.addressPoolList.items.map mkIPAddressPool ∧
    co.l2AdvertisementList.items = l.addressPoolList.items.flatMap l2Chunk ∧
    co.bgpAdvertisementList.items = l.addressPoolList.items.flatMap bgpChunk := by
  unfold LegacyObjects.Convert at h
  cases hc : convertItems l.addressPoolList.items with
  | error e => rw [hc] at h; cases h
  | ok r =>
    obtain ⟨i0, l0, b0⟩ := r
    rw [hc] at h
    obtain ⟨h1, h2, h3⟩ := convertItems_ok _ _ _ _ hc
    cases h
    exact ⟨h1, h2, h3⟩

theorem bgpAdvertisementsFrom_length (ap : AddressPool) (i : Nat)
    (advs : List LegacyBgpAdvertisement) :
    (bgpAdvertisementsFrom ap i advs).length = advs.length := by
  induction advs generalizing i with
  | nil => rfl
  | cons adv advs ih => simp [bgpAdvertisementsFrom, ih]

theorem bgpAdvertisementsFrom_get (ap : AddressPool) (i : Nat)
    (advs : List LegacyBgpAdvertisement) (j : Nat) (hj : j < advs.length)
    (hj2 : j < (bgpAdvertisementsFrom ap i advs).length) :
    (bgpAdvertisementsFrom ap i advs).get ⟨j, hj2⟩ = mkBGPAdvertisement ap (i + j) (advs.get ⟨j, hj⟩) := by
  induction advs generalizing i j with
  | nil => cases hj
  | cons adv advs ih =>
    cases j with
    | zero => simp [bgpAdvertisementsFrom]
    | succ j =>
      have hj' : j < advs.length := Nat.lt_of_succ_lt_succ hj
      have hj2' : j < (bgpAdvertisementsFrom ap (i + 1) advs).length := by
        rw [bgpAdvertisementsFrom_length]; exact hj'
      have := ih (i + 1) j hj' hj2'
      simp only [bgpAdvertisementsFrom, List.get_cons_succ, this]
      have : i + 1 + j = i + (j + 1) := by omega
      simp [this]

theorem bgpAdvertisementsFrom_mem_ipPools (ap : AddressPool) (i : Nat)
    (advs : List LegacyBgpAdvertisement) :
    ∀ b ∈ bgpAdvertisementsFrom ap i advs, b.spec.ipAddressPools = [ap.objectMeta.name] := by
  induction advs generalizing i with
  | nil => intro b hb; cases hb
  | cons adv advs ih =>
    intro b hb
    rcases List.mem_cons.mp hb with rfl | hb
    · rfl
    · exact ih (i + 1) b hb

theorem bgpChunk_mem_ipPools (ap : AddressPool) :
    ∀ b ∈ bgpChunk ap, b.spec.ipAddressPools = [ap.objectMeta.name] := by
  intro b hb
  unfold bgpChunk at hb
  split at hb
  · exact bgpAdvertisementsFrom_mem_ipPools ap 0 _ b hb
  · cases hb

theorem l2Chunk_mem_ipPools (ap : AddressPool) :
    ∀ a ∈ l2Chunk ap, a.spec.ipAddressPools = [ap.objectMeta.name] := by
  intro a ha
  unfold l2Chunk at ha
  split at ha
  · rcases List.mem_singleton.mp ha with rfl; rfl
  · cases ha

/-- bindFilterNodup captures that, when pool names are distinct, filtering
the concatenated per-pool output by back-reference to one pool recovers
exactly that pool's own contribution. -/
theorem bindFilterNodup {β : Type} (g : AddressPool → List β) (keyOf : β → List String)
    (hkey : ∀ ap, ∀ b ∈ g ap, keyOf b = [ap.objectMeta.name])
    (aps : List AddressPool) (p : AddressPool)
    (hnd : (aps.map (fun ap => ap.objectMeta.name)).Nodup) (hp : p ∈ aps) :
    (aps.flatMap g).filter (fun b => decide (keyOf b = [p.objectMeta.name])) = g p := by
  induction aps with
  | nil => cases hp
  | cons a rest ih =>
    rw [List.map_cons, List.nodup_cons] at hnd
    obtain ⟨hna, hndr⟩ := hnd
    rw [List.flatMap_cons, List.filter_append]
    rcases List.mem_cons.mp hp with rfl | hp
    · have h1 : (g p).filter (fun b => decide (keyOf b = [p.objectMeta.name])) = g p := by
        apply List.filter_eq_self.mpr
        intro b hb
        simp [hkey p b hb]
      have h2 : (rest.flatMap g).filter (fun b => decide (keyOf b = [p.objectMeta.name])) = [] := by
        apply List.filter_eq_nil_iff.mpr
        intro b hb
        obtain ⟨q, hq, hbq⟩ := List.mem_flatMap.mp hb
        have hk := hkey q b hbq
        have hqname : q.objectMeta.name ≠ p.objectMeta.name := by
          intro hcontra
          exact hna (hcontra ▸ List.mem_map_of_mem (fun ap => ap.objectMeta.name) hq)
        simp [hk, hqname]
      rw [h1, h2, List.append_nil]
    · have hpname : p.objectMeta.name ∈ rest.map (fun ap => ap.objectMeta.name) :=
        List.mem_map_of_mem _ hp
      have haname : a.objectMeta.name ≠ p.objectMeta.name := by
        intro hcontra
        exact hna (hcontra ▸ hpname)
      have h1 : (g a).filter (fun b => decide (keyOf b = [p.objectMeta.name])) = [] := by
        apply List.filter_eq_nil_iff.mpr
        intro b hb
        simp [hkey a b hb, haname]
      rw [h1, List.nil_append]
      exact ih hndr hp

theorem list_get_congr {α : Type} {l1 l2 : List α} (h : l1 = l2) (j : Nat)
    (h1 : j < l1.length) (h2 : j < l2.length) :
    l1.get ⟨j, h1⟩ = l2.get ⟨j, h2⟩ := by
  subst h; rfl

/-- C3: `Convert` returns an error if and only if some pool of the input has
a protocol that is neither layer2 nor bgp.  The embedding of `Convert` is a
pure total function into `Except`, so on failure no partial CurrentObjects
value exists and no side effect occurs. -/
theorem C3_convert_error_iff (l : LegacyObjects) :
    (∃ e, l.Convert = .error e) ↔
      ∃ ap ∈ l.addressPoolList.items,
        ap.spec.protocol ≠ ProtocolLayer2 ∧ ap.spec.protocol ≠ ProtocolBGP := by
  have hiff := convertItems_error_iff l.addressPoolList.items
  constructor
  · rintro ⟨e, he⟩
    apply hiff.mp
    unfold LegacyObjects.Convert at he
    cases hc : convertItems l.addressPoolList.items with
    | error e2 => exact ⟨e2, rfl⟩
    | ok r => obtain ⟨i0, l0, b0⟩ := r; rw [hc] at he; cases he
  · intro hbad
    obtain ⟨e, he⟩ := hiff.mpr hbad
    exact ⟨e, by unfold LegacyObjects.Convert; rw [he]⟩

/-- C7: on success, the IPAddressPool collection is, element for element and
in input order, the projection of the legacy pools (name, namespace,
addresses, autoAssign; protocol and advertisements dropped), so its length
always equals the number of input pools. -/
theorem C7_ipaddresspool_projection (l : LegacyObjects) (co : CurrentObjects)
    (hok : l.Convert = .ok co) :
    co.ipAddressPoolList.items = l.addressPoolList.items.map (fun ap =>
      { typeMeta := { kind := "IPAddressPool", apiVersion := metallbAPIVersion },
        objectMeta := { name := ap.objectMeta.name, nspace := ap.objectMeta.nspace },
        spec := { addresses := ap.spec.addresses, autoAssign := ap.spec.autoAssign } }) ∧
    co.ipAddressPoolList.items.length = l.addressPoolList.items.length := by
  obtain ⟨h1, _, _⟩ := Convert_ok_parts l co hok
  exact ⟨h1, by rw [h1, List.length_map]⟩

/-- C2: for a bgp pool of a successfully converted set with distinct pool
names, the BGPAdvertisements referencing that pool are exactly one per entry
of its advertisement list, in original order, each copying
aggregationLength, aggregationLengthV6, localPref and communities verbatim
and referencing only that pool; an empty advertisement list instead yields
exactly one synthesized advertisement with absent aggregation lengths,
localPref 0 and empty communities. -/
theorem C2_bgp_pool_advertisements (l : LegacyObjects) (co : CurrentObjects) (p : AddressPool)
    (hnd : (l.addressPoolList.items.map (fun ap => ap.objectMeta.name)).Nodup)
    (hok : l.Convert = .ok co)
    (hp : p ∈ l.addressPoolList.items)
    (hbgp : p.spec.protocol = ProtocolBGP) :
    ((co.bgpAdvertisementList.items.filter
        (fun b => decide (b.spec.ipAddressPools = [p.objectMeta.name]))).length
      = (if p.spec.bgpAdvertisements = [] then 1 else p.spec.bgpAdvertisements.length)) ∧
    (∀ (j : Nat) (hj : j < p.spec.bgpAdvertisements.length)
        (hj2 : j < (co.bgpAdvertisementList.items.filter
          (fun b => decide (b.spec.ipAddressPools = [p.objectMeta.name]))).length),
        ((co.bgpAdvertisementList.items.filter
           (fun b => decide (b.spec.ipAddressPools = [p.objectMeta.name]))).get ⟨j, hj2⟩).spec
          = { aggregationLength := (p.spec.bgpAdvertisements.get ⟨j, hj⟩).aggregationLength,
              aggregationLengthV6 := (p.spec.bgpAdvertisements.get ⟨j, hj⟩).aggregationLengthV6,
              localPref := (p.spec.bgpAdvertisements.get ⟨j, hj⟩).localPref,
              communities := (p.spec.bgpAdvertisements.get ⟨j, hj⟩).communities,
              ipAddressPools := [p.objectMeta.name] }) ∧
    (p.spec.bgpAdvertisements = [] →
      ∀ (hj2 : 0 < (co.bgpAdvertisementList.items.filter
          (fun b => decide (b.spec.ipAddressPools = [p.objectMeta.name]))).length),
        ((co.bgpAdvertisementList.items.filter
           (fun b => decide (b.spec.ipAddressPools = [p.objectMeta.name]))).get ⟨0, hj2⟩).spec
          = { aggregationLength := none, aggregationLengthV6 := none, localPref := 0,
              communities := [], ipAddressPools := [p.objectMeta.name] }) := by
  obtain ⟨-, -, hb⟩ := Convert_ok_parts l co hok
  have hfilter : co.bgpAdvertisementList.items.filter
      (fun b => decide (b.spec.ipAddressPools = [p.objectMeta.name])) = bgpChunk p := by
    rw [hb]
    exact bindFilterNodup bgpChunk (fun b => b.spec.ipAddressPools)
      bgpChunk_mem_ipPools l.addressPoolList.items p hnd hp
  have hchunk : bgpChunk p = bgpAdvertisementsFrom p 0 (effectiveAdvertisements p) := by
    unfold bgpChunk bgpAdvertisementsForPool
    rw [if_pos hbgp]
  refine ⟨?_, ?_, ?_⟩
  · rw [hfilter, hchunk, bgpAdvertisementsFrom_length]
    unfold effectiveAdvertisements
    split
    · simp
    · rfl
  · intro j hj hj2
    have hne : ¬ p.spec.bgpAdvertisements = [] := by
      intro hcontra
      rw [hcontra] at hj
      cases hj
    have heff : effectiveAdvertisements p = p.spec.bgpAdvertisements := by
      unfold effectiveAdvertisements
      rw [if_neg hne]
    have heq := hfilter.trans hchunk
    have hj' : j < (effectiveAdvertisements p).length := by rw [heff]; exact hj
    have hj2' : j < (bgpAdvertisementsFrom p 0 (effectiveAdvertisements p)).length := by
      rw [bgpAdvertisementsFrom_length]; exact hj'
    rw [list_get_congr heq j hj2 hj2', bgpAdvertisementsFrom_get p 0 _ j hj' hj2']
    simp only [mkBGPAdvertisement, Nat.zero_add]
    rw [list_get_congr heff j hj' hj]
  · intro hempty hj2
    have heff : effectiveAdvertisements p =
        [{ aggregationLength := none, aggregationLengthV6 := none, localPref := 0, communities := [] }] := by
      unfold effectiveAdvertisements
      rw [if_pos hempty]
    have heq := hfilter.trans hchunk
    have hj' : 0 < (effectiveAdvertisements p).length := by rw [heff]; decide
    have hj2' : 0 < (bgpAdvertisementsFrom p 0 (effectiveAdvertisements p)).length := by
      rw [bgpAdvertisementsFrom_length]; exact hj'
    rw [list_get_congr heq 0 hj2 hj2', bgpAdvertisementsFrom_get p 0 _ 0 hj' hj2']
    have h0 := list_get_congr heff 0 hj' (by decide)
    rw [h0]
    rfl

/-- C4: in a successfully converted set with distinct pool names, the
L2Advertisement emitted for a layer2 pool is named exactly
`<poolName>-l2-advertisement`, and the i-th BGPAdvertisement emitted for a
bgp pool (zero-based, in original order over the possibly synthesized
advertisement list) is named exactly `<poolName>-bgp-advertisement-<i>`. -/
theorem C4_advertisement_naming (l : LegacyObjects) (co : CurrentObjects)
    (hnd : (l.addressPoolList.items.map (fun ap => ap.objectMeta.name)).Nodup)
    (hok : l.Convert = .ok co) :
    (∀ p ∈ l.addressPoolList.items, p.spec.protocol = ProtocolLayer2 →
      (co.l2AdvertisementList.items.filter
        (fun a => decide (a.spec.ipAddressPools = [p.objectMeta.name]))).map (fun a => a.objectMeta.name)
        = [p.objectMeta.name ++ "-l2-advertisement"]) ∧
    (∀ p ∈ l.addressPoolList.items, p.spec.protocol = ProtocolBGP →
      ∀ (j : Nat) (hj : j < (co.bgpAdvertisementList.items.filter
          (fun b => decide (b.spec.ipAddressPools = [p.objectMeta.name]))).length),
        ((co.bgpAdvertisementList.items.filter
            (fun b => decide (b.spec.ipAddressPools = [p.objectMeta.name]))).get ⟨j, hj⟩).objectMeta.name
          = p.objectMeta.name ++ "-bgp-advertisement-" ++ toString j) := by
  obtain ⟨-, hl2, hb⟩ := Convert_ok_parts l co hok
  constructor
  · intro p hp hl2p
    have hfilter : co.l2AdvertisementList.items.filter
        (fun a => decide (a.spec.ipAddressPools = [p.objectMeta.name])) = l2Chunk p := by
      rw [hl2]
      exact bindFilterNodup l2Chunk (fun a => a.spec.ipAddressPools)
        l2Chunk_mem_ipPools l.addressPoolList.items p hnd hp
    rw [hfilter]
    unfold l2Chunk
    rw [if_pos hl2p]
    rfl
  · intro p hp hbgp j hj
    have hfilter : co.bgpAdvertisementList.items.filter
        (fun b => decide (b.spec.ipAddressPools = [p.objectMeta.name])) = bgpChunk p := by
      rw [hb]
      exact bindFilterNodup bgpChunk (fun b => b.spec.ipAddressPools)
        bgpChunk_mem_ipPools l.addressPoolList.items p hnd hp
    have hchunk : bgpChunk p = bgpAdvertisementsFrom p 0 (effectiveAdvertisements p) := by
      unfold bgpChunk bgpAdvertisementsForPool
      rw [if_pos hbgp]
    have heq := hfilter.trans hchunk
    have hjf : j < (bgpAdvertisementsFrom p 0 (effectiveAdvertisements p)).length := by
      rw [← heq]; exact hj
    have hj' : j < (effectiveAdvertisements p).length := by
      rw [← bgpAdvertisementsFrom_length p 0]
      exact hjf
    rw [list_get_congr heq j hj hjf, bgpAdvertisementsFrom_get p 0 _ j hj' hjf]
    simp [mkBGPAdvertisement]

theorem sampleLegacy_Convert : sampleLegacy.Convert = .ok sampleConverted := by decide

theorem singleL2Legacy_Convert : singleL2Legacy.Convert = .ok singleL2Converted := by decide

/-- C7 witness: at the three-pool fixture set the IPAddressPool count equals
the legacy pool count and the first element is the projection of `ap-l2`. -/
theorem C7_ipaddresspool_projection_witness :
    sampleLegacy.Convert = .ok sampleConverted ∧
    sampleConverted.ipAddressPoolList.items.length = sampleLegacy.addressPoolList.items.length :=
  ⟨sampleLegacy_Convert,
   (C7_ipaddresspool_projection sampleLegacy sampleConverted sampleLegacy_Convert).2⟩

/-- C2 witness: at the fixture set, the bgp pool `ap-bgp` with two
advertisement entries yields exactly two BGPAdvertisements referencing it. -/
theorem C2_bgp_pool_advertisements_witness :
    (sampleConverted.bgpAdvertisementList.items.filter
      (fun b => decide (b.spec.ipAddressPools = [sampleBgpPool.objectMeta.name]))).length
    = (if sampleBgpPool.spec.bgpAdvertisements = [] then 1
       else sampleBgpPool.spec.bgpAdvertisements.length) :=
  (C2_bgp_pool_advertisements sampleLegacy sampleConverted sampleBgpPool
    (by decide) sampleLegacy_Convert (by decide) (by decide)).1

/-- C4 witness: at the fixture set the single L2Advertisement of the layer2
pool `ap-l2` is named `ap-l2-l2-advertisement`. -/
theorem C4_advertisement_naming_witness :
    (sampleConverted.l2AdvertisementList.items.filter
      (fun a => decide (a.spec.ipAddressPools = [sampleL2Pool.objectMeta.name]))).map
        (fun a => a.objectMeta.name)
    = [sampleL2Pool.objectMeta.name ++ "-l2-advertisement"] :=
  (C4_advertisement_naming sampleLegacy sampleConverted (by decide) sampleLegacy_Convert).1
    sampleL2Pool (by decide) (by decide)

/-! Serialization: mutation of the legacy receiver, round trip through a
directory, and output file naming. -/

/-- C10 counterexample: serializing a legacy set whose pool has an empty
TypeMeta changes that pool in place — its Kind field goes from the empty
string to AddressPool — so serialization does not leave every field of every
member unchanged. -/
theorem C10_counterexample :
    (singleL2Legacy.Print false).1 ≠ singleL2Legacy ∧
    (singleL2Legacy.Print false).1.addressPoolList.items.map (fun ap => ap.typeMeta.kind)
      = ["AddressPool"] ∧
    singleL2Legacy.addressPoolList.items.map (fun ap => ap.typeMeta.kind) = [""] := by
  decide

/-- C10 amended: serializing a LegacyObjects set rewrites, in place, exactly
the empty Kind/APIVersion header fields of its members (to AddressPool and
metallb.io/v1beta1) and leaves the identifying metadata and the spec of
every member unchanged; `Convert` and CurrentObjects serialization modify
nothing (they are value-pure in the code and in this embedding). -/
theorem C10_amended_print_mutation (l : LegacyObjects) (toJSON : Bool) :
    (l.Print toJSON).1.addressPoolList.items = l.addressPoolList.items.map (fun ap =>
      { ap with typeMeta :=
          { kind := if ap.typeMeta.kind = "" then "AddressPool" else ap.typeMeta.kind,
            apiVersion := if ap.typeMeta.apiVersion = "" then metallbAPIVersion
                          else ap.typeMeta.apiVersion } }) ∧
    (l.Print toJSON).1.addressPoolList.items.map poolData
      = l.addressPoolList.items.map poolData := by
  unfold LegacyObjects.Print
  by_cases hemp : l.addressPoolList.items.isEmpty
  · have hnil : l.addressPoolList.items = [] := List.isEmpty_iff.mp hemp
    rw [if_pos hemp]
    simp [hnil]
  · rw [if_neg hemp]
    constructor
    · rfl
    · rw [List.map_map]
      exact List.map_congr_left (fun ap _ => rfl)

theorem parseGroupVersion_metallb :
    parseGroupVersion metallbAPIVersion = (metallbAPIGroup, "v1beta1") := by decide

theorem setDefaultTypeMeta_kind (ap : AddressPool)
    (hk : ap.typeMeta.kind = "" ∨ ap.typeMeta.kind = "AddressPool") :
    (setDefaultTypeMeta ap).typeMeta.kind = "AddressPool" := by
  unfold setDefaultTypeMeta
  rcases hk with h | h <;> simp [h]

theorem setDefaultTypeMeta_ver (ap : AddressPool)
    (hv : ap.typeMeta.apiVersion = "" ∨ ap.typeMeta.apiVersion = metallbAPIVersion) :
    (setDefaultTypeMeta ap).typeMeta.apiVersion = metallbAPIVersion := by
  unfold setDefaultTypeMeta
  rcases hv with h | h <;> simp [h, metallbAPIVersion]

theorem decodeElement_addressPool (ap : AddressPool)
    (hkind : ap.typeMeta.kind = "AddressPool")
    (hver : ap.typeMeta.apiVersion = metallbAPIVersion) :
    decodeElement (KubeObject.addressPool ap) = .ok [ap] := by
  unfold decodeElement
  simp only [docTypeMeta, hver, hkind, parseGroupVersion_metallb]
  simp [supportedLegacyGKVVersions]

theorem readDocs_addressPools (aps : List AddressPool)
    (h : ∀ ap ∈ aps, ap.typeMeta.kind = "AddressPool" ∧ ap.typeMeta.apiVersion = metallbAPIVersion) :
    readDocs (aps.map KubeObject.addressPool) = .ok aps := by
  induction aps with
  | nil => rfl
  | cons ap rest ih =>
    have hap := h ap (List.mem_cons_self ap rest)
    have hrest := ih (fun x hx => h x (List.mem_cons_of_mem ap hx))
    rw [List.map_cons, readDocs, decodeElement_addressPool ap hap.1 hap.2, hrest]
    rfl

/-- C8: serializing a LegacyObjects set (whose serialization headers are
either unset or the canonical AddressPool ones, as for every set the program
itself builds) to a directory and re-reading that directory yields a set
with the same number of pools, in the same order, with the same name,
namespace and spec field values. -/
theorem C8_directory_roundtrip (l : LegacyObjects) (toJSON : Bool)
    (hwf : ∀ ap ∈ l.addressPoolList.items,
      (ap.typeMeta.kind = "" ∨ ap.typeMeta.kind = "AddressPool") ∧
      (ap.typeMeta.apiVersion = "" ∨ ap.typeMeta.apiVersion = metallbAPIVersion)) :
    ∃ l2, ReadLegacyObjectsFromDirectory ((l.Print toJSON).2) = .ok l2 ∧
      l2.addressPoolList.items.length = l.addressPoolList.items.length ∧
      l2.addressPoolList.items.map poolData = l.addressPoolList.items.map poolData := by
  unfold LegacyObjects.Print
  by_cases hemp : l.addressPoolList.items.isEmpty
  · have hnil : l.addressPoolList.items = [] := List.isEmpty_iff.mp hemp
    refine ⟨mkLegacyObjects [], ?_, ?_, ?_⟩
    · rw [if_pos hemp]; rfl
    · simp [mkLegacyObjects, hnil]
    · simp [mkLegacyObjects, hnil]
  · have hdocs : readDocs ((l.addressPoolList.items.map setDefaultTypeMeta).map KubeObject.addressPool)
        = .ok (l.addressPoolList.items.map setDefaultTypeMeta) := by
      apply readDocs_addressPools
      intro x hx
      obtain ⟨y, hy, rfl⟩ := List.mem_map.mp hx
      exact ⟨setDefaultTypeMeta_kind y (hwf y hy).1, setDefaultTypeMeta_ver y (hwf y hy).2⟩
    refine ⟨mkLegacyObjects (l.addressPoolList.items.map setDefaultTypeMeta), ?_, ?_, ?_⟩
    · rw [if_neg hemp]
      unfold ReadLegacyObjectsFromDirectory
      rw [readFiles, hdocs, readFiles]
      simp
    · simp [mkLegacyObjects]
    · simp only [mkLegacyObjects, List.map_map]
      exact List.map_congr_left (fun ap _ => rfl)

/-- C8 witness at the three-pool fixture set. -/
theorem C8_directory_roundtrip_witness :
    ∃ l2, ReadLegacyObjectsFromDirectory ((sampleLegacy.Print false).2) = .ok l2 ∧
      l2.addressPoolList.items.length = sampleLegacy.addressPoolList.items.length ∧
      l2.addressPoolList.items.map poolData = sampleLegacy.addressPoolList.items.map poolData :=
  C8_directory_roundtrip sampleLegacy false (by decide)

theorem checkDocs_ok (docs : List KubeObject)
    (h : ∀ d ∈ docs, ¬ (docTypeMeta d).apiVersion = "") :
    checkDocs docs = .ok () := by
  induction docs with
  | nil => rfl
  | cons d ds ih =>
    rw [checkDocs, if_neg (fun hc => h d (List.mem_cons_self d ds) hc.2)]
    exact ih (fun x hx => h x (List.mem_cons_of_mem d hx))

theorem metallbAPIVersion_ne_empty : metallbAPIVersion ≠ "" := by decide

theorem collectionFiles_ok {α : Type} [DecidableEq α] (items : List α) (toK : α → KubeObject)
    (kind : String) (toJSON : Bool)
    (h : ∀ x ∈ items, docTypeMeta (toK x) = { kind := kind, apiVersion := metallbAPIVersion }) :
    collectionFiles (items.map toK) toJSON
      = .ok (if items = [] then []
             else [{ fileName := kind ++ "." ++ fileExt toJSON, docs := items.map toK }]) := by
  cases items with
  | nil => rfl
  | cons x xs =>
    have hck : checkDocs (toK x :: xs.map toK) = .ok () := by
      apply checkDocs_ok
      intro d hd
      have hver : (docTypeMeta d).apiVersion = metallbAPIVersion := by
        rcases List.mem_cons.mp hd with rfl | hd2
        · rw [h x (List.mem_cons_self x xs)]
        · obtain ⟨y, hy, rfl⟩ := List.mem_map.mp hd2
          rw [h y (List.mem_cons_of_mem x hy)]
      rw [hver]
      exact metallbAPIVersion_ne_empty
    rw [List.map_cons]
    unfold collectionFiles
    rw [hck]
    simp [h x (List.mem_cons_self x xs)]

/-- C9: writing to a target directory yields exactly one output file per
non-empty resource-kind collection, named `<Kind>.yaml` or `<Kind>.json`
after the format flag, holding that collection's documents; empty
collections yield no file at all.  Stated for both set shapes; the current
set is assumed to carry the canonical headers `Convert` stamps on every
object (the printers refuse header-less objects). -/
theorem C9_directory_file_naming (l : LegacyObjects) (co : CurrentObjects) (toJSON : Bool)
    (hwf : wellKinded co) :
    ((l.Print toJSON).2 = if l.addressPoolList.items = [] then []
      else [{ fileName := "AddressPool" ++ "." ++ fileExt toJSON,
              docs := (l.addressPoolList.items.map setDefaultTypeMeta).map KubeObject.addressPool }]) ∧
    (co.Print toJSON = .ok (
      (if co.ipAddressPoolList.items = [] then [] else
        [{ fileName := "IPAddressPool" ++ "." ++ fileExt toJSON,
           docs := co.ipAddressPoolList.items.map KubeObject.ipAddressPool }]) ++
      (if co.l2AdvertisementList.items = [] then [] else
        [{ fileName := "L2Advertisement" ++ "." ++ fileExt toJSON,
           docs := co.l2AdvertisementList.items.map KubeObject.l2Advertisement }]) ++
      (if co.bgpAdvertisementList.items = [] then [] else
        [{ fileName := "BGPAdvertisement" ++ "." ++ fileExt toJSON,
           docs := co.bgpAdvertisementList.items.map KubeObject.bgpAdvertisement }]))) := by
  obtain ⟨h1, h2, h3⟩ := hwf
  constructor
  · unfold LegacyObjects.Print
    by_cases hemp : l.addressPoolList.items.isEmpty
    · rw [if_pos hemp, if_pos (List.isEmpty_iff.mp hemp)]
    · rw [if_neg hemp, if_neg (fun hc => hemp (by rw [hc]; rfl))]
  · unfold CurrentObjects.Print
    rw [collectionFiles_ok co.ipAddressPoolList.items KubeObject.ipAddressPool "IPAddressPool" toJSON
          (fun x hx => by simp only [docTypeMeta]; exact h1 x hx),
        collectionFiles_ok co.l2AdvertisementList.items KubeObject.l2Advertisement "L2Advertisement" toJSON
          (fun x hx => by simp only [docTypeMeta]; exact h2 x hx),
        collectionFiles_ok co.bgpAdvertisementList.items KubeObject.bgpAdvertisement "BGPAdvertisement" toJSON
          (fun x hx => by simp only [docTypeMeta]; exact h3 x hx)]

/-- C9 witness: at the fixture conversion result every collection is
non-empty, so three files with the YAML extension are produced. -/
theorem C9_directory_file_naming_witness :
    sampleConverted.Print false = .ok (
      (if sampleConverted.ipAddressPoolList.items = [] then [] else
        [{ fileName := "IPAddressPool" ++ "." ++ fileExt false,
           docs := sampleConverted.ipAddressPoolList.items.map KubeObject.ipAddressPool }]) ++
      (if sampleConverted.l2AdvertisementList.items = [] then [] else
        [{ fileName := "L2Advertisement" ++ "." ++ fileExt false,
           docs := sampleConverted.l2AdvertisementList.items.map KubeObject.l2Advertisement }]) ++
      (if sampleConverted.bgpAdvertisementList.items = [] then [] else
        [{ fileName := "BGPAdvertisement" ++ "." ++ fileExt false,
           docs := sampleConverted.bgpAdvertisementList.items.map KubeObject.bgpAdvertisement }])) :=
  (C9_directory_file_naming sampleLegacy sampleConverted false (by decide)).2

/-! Online migration: trace lemmas and the claims about the loop. -/

theorem createItems_events {α : Type} (fm : FaultModel) (kind : String) (nameOf : α → String)
    (ins : CurrStore → α → CurrStore) (xs : List α) (cs : CurrStore) :
    ∀ e ∈ (createItems fm kind nameOf ins xs cs).events, ∃ m, e = Event.createObj kind m := by
  induction xs generalizing cs with
  | nil => intro e he; cases he
  | cons x xs ih =>
    intro e he
    unfold createItems at he
    by_cases hf : fm.createFails kind (nameOf x) = true
    · simp only [hf, if_true, List.mem_singleton] at he
      exact ⟨nameOf x, he⟩
    · simp only [eq_false_of_ne_true hf, if_false] at he
      cases he with
      | head => exact ⟨nameOf x, rfl⟩
      | tail _ h2 => exact ih _ e h2

theorem andThen_events (r : CurrOpResult) (f : CurrStore → CurrOpResult) :
    ∀ e ∈ (andThen r f).events, e ∈ r.events ∨ e ∈ (f r.curr).events := by
  intro e he
  unfold andThen at he
  split at he
  · exact Or.inl he
  · exact List.mem_append.mp he

theorem Create_events (c : CurrentObjects) (fm : FaultModel) (cs : CurrStore) :
    ∀ e ∈ (c.Create fm cs).events,
      (∃ m, e = Event.createObj "IPAddressPool" m) ∨
      (∃ m, e = Event.createObj "BGPAdvertisement" m) ∨
      (∃ m, e = Event.createObj "L2Advertisement" m) := by
  intro e he
  unfold CurrentObjects.Create at he
  rcases andThen_events _ _ e he with h | h
  · exact Or.inl (createItems_events fm "IPAddressPool" (fun p => p.objectMeta.name)
      (fun cs p => { cs with ipAddressPools := cs.ipAddressPools ++ [p] })
      c.ipAddressPoolList.items cs e h)
  · rcases andThen_events _ _ e h with h2 | h2
    · exact Or.inr (Or.inl (createItems_events fm "BGPAdvertisement" (fun a => a.objectMeta.name)
        (fun cs a => { cs with bgpAdvertisements := cs.bgpAdvertisements ++ [a] })
        c.bgpAdvertisementList.items _ e h2))
    · exact Or.inr (Or.inr (createItems_events fm "L2Advertisement" (fun a => a.objectMeta.name)
        (fun cs a => { cs with l2Advertisements := cs.l2Advertisements ++ [a] })
        c.l2AdvertisementList.items _ e h2))

theorem Create_events_loop (c : CurrentObjects) (fm : FaultModel) (cs : CurrStore) :
    ∀ e ∈ (c.Create fm cs).events, e.isLoopEvent = true := by
  intro e he
  rcases Create_events c fm cs e he with ⟨m, rfl⟩ | ⟨m, rfl⟩ | ⟨m, rfl⟩ <;> rfl

theorem onlineLoopFuel_events (fm : FaultModel) :
    ∀ (n : Nat) (aps : List AddressPool) (cs : CurrStore),
      ∀ e ∈ (onlineLoopFuel fm n aps cs).events, e.isLoopEvent = true := by
  intro n
  induction n with
  | zero => intro aps cs e he; cases he
  | succ n ih =>
    intro aps cs e he
    cases aps with
    | nil =>
      simp only [onlineLoopFuel, List.mem_singleton] at he
      rw [he]; rfl
    | cons p t =>
      simp only [onlineLoopFuel] at he
      split at he
      · simp only [List.mem_singleton] at he
        rw [he]; rfl
      · split at he
        · simp only [List.mem_cons, List.not_mem_nil, or_false] at he
          rcases he with rfl | rfl
          · rfl
          · rfl
        · split at he
          · simp only [List.mem_cons] at he
            rcases he with rfl | rfl | he
            · rfl
            · rfl
            · exact Create_events_loop _ fm cs e he
          · simp only [List.mem_cons, List.mem_append] at he
            rcases he with rfl | rfl | he | he
            · rfl
            · rfl
            · exact Create_events_loop _ fm cs e he
            · exact ih _ _ e he

/-- C5: every online migration run starts with exactly one unbounded fetch
of the entire legacy set immediately followed by its serialization to the
backup location, before any event of the per-item loop; all later events
are bounded fetches, deletes or creates, so no further unbounded fetch or
backup ever occurs — unconditionally, for any store content and fault
behavior, including a store with zero pools. -/
theorem C5_upfront_backup (fm : FaultModel) (toJSON : Bool) (s : Store) :
    ∃ evs, (OnlineMigration fm toJSON s).events
        = Event.list 0 :: Event.backup ((mkLegacyObjects s.addressPools).Print toJSON).2 :: evs ∧
      ∀ e ∈ evs, e.isLoopEvent = true :=
  ⟨(onlineLoop fm s.addressPools s.curr).events, rfl,
   fun e he => onlineLoopFuel_events fm _ _ _ e he⟩

/-- C1: in any iteration of the migration loop in which the fetched pool
converts, its deletion from the store succeeds and creating the converted
replacements fails, the run aborts immediately returning the creation
error: the trace ends at the failing create (no retry), the deleted pool is
recreated by nothing (no AddressPool create exists anywhere in the
iteration), the already-created replacements are kept (the only delete of
the trace is the legacy pool itself), and the pool is gone from the legacy
store, so its configuration survives in neither schema. -/
theorem C1_delete_succeeds_create_fails (fm : FaultModel) (p : AddressPool)
    (t : List AddressPool) (cs : CurrStore) (co : CurrentObjects) (e : String)
    (hconv : (mkLegacyObjects [p]).Convert = .ok co)
    (hdel : fm.deleteFails "AddressPool" p.objectMeta.name = false)
    (hcr : (co.Create fm cs).result = .error e) :
    (onlineLoop fm (p :: t) cs).result
        = .error ("online migration failed during current object creation, err: " ++ e) ∧
    (onlineLoop fm (p :: t) cs).events
        = Event.list 1 :: Event.deleteObj "AddressPool" p.objectMeta.name
            :: (co.Create fm cs).events ∧
    (onlineLoop fm (p :: t) cs).addressPools
        = t.filter (fun q => decide (q.objectMeta ≠ p.objectMeta)) ∧
    (∀ q ∈ (onlineLoop fm (p :: t) cs).addressPools, q.objectMeta ≠ p.objectMeta) ∧
    (onlineLoop fm (p :: t) cs).curr = (co.Create fm cs).curr ∧
    (∀ m, Event.createObj "AddressPool" m ∉ (onlineLoop fm (p :: t) cs).events) ∧
    (∀ k m, Event.deleteObj k m ∈ (onlineLoop fm (p :: t) cs).events →
      k = "AddressPool" ∧ m = p.objectMeta.name) := by
  have hrun : onlineLoop fm (p :: t) cs =
      { result := .error ("online migration failed during current object creation, err: " ++ e),
        addressPools := t.filter (fun q => decide (q.objectMeta ≠ p.objectMeta)),
        curr := (co.Create fm cs).curr,
        events := Event.list 1 :: Event.deleteObj "AddressPool" p.objectMeta.name
          :: (co.Create fm cs).events } := by
    unfold onlineLoop
    simp only [onlineLoopFuel, hconv, hdel, hcr, Bool.false_eq_true, if_false]
  refine ⟨by rw [hrun], by rw [hrun], by rw [hrun], ?_, by rw [hrun], ?_, ?_⟩
  · intro q hq
    rw [hrun] at hq
    exact of_decide_eq_true (List.mem_filter.mp hq).2
  · intro m hm
    rw [hrun] at hm
    simp only [List.mem_cons] at hm
    rcases hm with hm | hm | hm
    · cases hm
    · cases hm
    · rcases Create_events co fm cs _ hm with ⟨m2, hm2⟩ | ⟨m2, hm2⟩ | ⟨m2, hm2⟩ <;>
        (injection hm2 with h1 h2; exact absurd h1 (by decide))
  · intro k m hm
    rw [hrun] at hm
    simp only [List.mem_cons] at hm
    rcases hm with hm | hm | hm
    · cases hm
    · injection hm with h1 h2
      exact ⟨h1, h2⟩
    · rcases Create_events co fm cs _ hm with ⟨m2, hm2⟩ | ⟨m2, hm2⟩ | ⟨m2, hm2⟩ <;> cases hm2

/-- C1 witness: one layer2 pool, deletion succeeds, creating its
IPAddressPool replacement fails; the loop returns the creation error. -/
theorem C1_delete_succeeds_create_fails_witness :
    (onlineLoop fmFailIP [sampleL2Pool] emptyCurrStore).result
      = .error ("online migration failed during current object creation, err: " ++
                "cannot create currentObject IPAddressPool, ap-l2") :=
  (C1_delete_succeeds_create_fails fmFailIP sampleL2Pool [] emptyCurrStore singleL2Converted
    "cannot create currentObject IPAddressPool, ap-l2"
    singleL2Legacy_Convert rfl (by decide)).1

/-- C6 counterexample: a store holding a convertible layer2 pool before an
unsupported-protocol pool.  The run does fail with a conversion error, but
the live store does not remain unmodified: the layer2 pool was already
deleted and recreated in the new schema before the failure, refuting the
claim that no deletes and no creates are attempted for any pool. -/
theorem C6_counterexample :
    (∃ ap ∈ c6Store.addressPools,
      ap.spec.protocol ≠ ProtocolLayer2 ∧ ap.spec.protocol ≠ ProtocolBGP) ∧
    (OnlineMigration fmNone false c6Store).result ≠ .ok () ∧
    Event.deleteObj "AddressPool" "ap-l2" ∈ (OnlineMigration fmNone false c6Store).events ∧
    Event.createObj "IPAddressPool" "ap-l2" ∈ (OnlineMigration fmNone false c6Store).events ∧
    (OnlineMigration fmNone false c6Store).addressPools ≠ c6Store.addressPools := by
  decide

/-- C6 amended: when the unsupported-protocol pool is the first one the loop
fetches — in particular whenever it is the only pool — the run aborts with a
conversion error and the live store is completely unmodified, with no delete
and no create attempted for any pool; pools fetched in earlier iterations,
however, have already been migrated by the time a later unsupported pool is
reached. -/
theorem C6_amended_unsupported_head (fm : FaultModel) (toJSON : Bool) (s : Store)
    (p : AddressPool) (t : List AddressPool)
    (hs : s.addressPools = p :: t)
    (h2 : p.spec.protocol ≠ ProtocolLayer2)
    (h3 : p.spec.protocol ≠ ProtocolBGP) :
    (∃ e, (OnlineMigration fm toJSON s).result = .error e) ∧
    (OnlineMigration fm toJSON s).addressPools = s.addressPools ∧
    (OnlineMigration fm toJSON s).curr = s.curr ∧
    (OnlineMigration fm toJSON s).events
      = [Event.list 0, Event.backup ((mkLegacyObjects s.addressPools).Print toJSON).2,
         Event.list 1] := by
  have hconv : (mkLegacyObjects [p]).Convert
      = .error ("unsupported Spec.Protocol for AddressPool, " ++ p.objectMeta.name) := by
    unfold LegacyObjects.Convert mkLegacyObjects
    simp [convertItems, h2, h3]
  have hloop : onlineLoop fm (p :: t) s.curr =
      { result := .error ("error during conversion step, err: " ++
          ("unsupported Spec.Protocol for AddressPool, " ++ p.objectMeta.name)),
        addressPools := p :: t, curr := s.curr, events := [.list 1] } := by
    unfold onlineLoop
    simp only [onlineLoopFuel, hconv]
  unfold OnlineMigration
  rw [hs, hloop]
  exact ⟨⟨_, rfl⟩, rfl, rfl, rfl⟩

/-- C6 amended witness: a store holding only the unsupported pool stays
completely untouched. -/
theorem C6_amended_unsupported_head_witness :
    (∃ e, (OnlineMigration fmNone false c6BadOnlyStore).result = .error e) ∧
    (OnlineMigration fmNone false c6BadOnlyStore).addressPools = c6BadOnlyStore.addressPools ∧
    (OnlineMigration fmNone false c6BadOnlyStore).curr = c6BadOnlyStore.curr ∧
    (OnlineMigration fmNone false c6BadOnlyStore).events
      = [Event.list 0,
         Event.backup ((mkLegacyObjects c6BadOnlyStore.addressPools).Print false).2,
         Event.list 1] :=
  C6_amended_unsupported_head fmNone false c6BadOnlyStore badPool [] rfl
    (by decide) (by decide)

end MetallbConverter
